import Mathlib

/-!
Verification of the instruction execution engine of the APOS repository.

The combinator bodies are embedded from
src/tests/core/instructions/test_advanced.py (SimpleInstruction,
SimpleCompositeInstruction, SimpleParallelInstruction,
ConditionalInstructionTest).  The generic execute wrapper of
BaseInstruction/AdvancedInstruction (agentflow/core/instructions/base.py and
advanced.py) is not present under src/, so it is modelled from the spec
(sections 4.1, 4.2 and 7), as is IterativeInstruction (spec section 4.6).
Raised Python exceptions are modelled as the error side of Except String.
-/

namespace APOS

/-- InstructionStatus enum (spec section 3): Pending, Running, Completed,
Failed.  Running is transient; Completed and Failed are the terminal
outcomes of one execute call. -/
inductive InstructionStatus where
  | pending
  | running
  | completed
  | failed
deriving DecidableEq

/-- Python values as they flow through instruction contexts and result data:
None, strings, integers, booleans, lists, string-keyed dicts, and
InstructionResult objects (a composite body returns a list of child result
objects).  The vresult constructor inlines the fields of an
InstructionResult. -/
inductive PyVal where
  | vnone
  | vstr (s : String)
  | vint (n : Int)
  | vbool (b : Bool)
  | vlist (xs : List PyVal)
  | vdict (xs : List (String × PyVal))
  | vresult (status : InstructionStatus) (data : PyVal) (error : Option String)

/-- An execution context: a Python dict from string keys to values,
modelled as an insertion-ordered association list. -/
abbrev Ctx := List (String × PyVal)

/-- InstructionResult (spec section 3): status, data (vnone when absent,
i.e. on failure), error (some message iff failed).  The purely
observational metrics field never affects control flow (spec section 3)
and is omitted. -/
structure InstructionResult where
  status : InstructionStatus
  data : PyVal
  error : Option String

/-- Turn an InstructionResult object into a PyVal, as when a composite
body returns the list of its child result objects. -/
def InstructionResult.toVal (r : InstructionResult) : PyVal :=
  .vresult r.status r.data r.error

/-- ValidationResult (spec section 3): is_valid, score, metrics,
violations. -/
structure ValidationResult where
  is_valid : Bool
  score : Rat
  metrics : List (String × PyVal)
  violations : List String

/-- A trace of hook/child invocations: each entry is the name of the
invoked body or child together with the context it was invoked with.
This is the formal counterpart of the spy/counter the spec suggests for
observing that a hook was or was not invoked. -/
abbrev Trace := List (String × Ctx)

/-- Modelled from the spec: the execute wrapper of
BaseInstruction/AdvancedInstruction (agentflow/core/instructions/base.py
and the execute refinement in advanced.py are not under src/; only their
tests are).  Spec sections 4.1 and 4.2: call the validation hook first; a
validation hook that itself raises is treated as a validation failure
with a synthetic violation describing the raised error; an invalid
outcome short-circuits to Failed with the joined violations and the body
hook is never invoked; otherwise the body hook runs, a normal return
becomes Completed with the returned value as data, and a raised failure
becomes Failed with the failure message.  Failures never escape to the
caller (spec section 7).  The second component threads the trace of body
invocations. -/
def executeAdvanced (validate : Ctx → Except String ValidationResult)
    (body : Ctx → Except String PyVal × Trace) (ctx : Ctx) :
    InstructionResult × Trace :=
  match validate ctx with
  | .error e =>
      (⟨.failed, .vnone, some (String.intercalate "; " [e])⟩, [])
  | .ok v =>
      if v.is_valid then
        match body ctx with
        | (.ok d, tr) => (⟨.completed, d, none⟩, tr)
        | (.error e, tr) => (⟨.failed, .vnone, some e⟩, tr)
      else
        (⟨.failed, .vnone, some (String.intercalate "; " v.violations)⟩, [])

/-- A validation result that passes with no violations, as produced by a
validation pass with no rules (test_advanced.py lines 53-58). -/
def passValidation : ValidationResult := ⟨true, 1, [], []⟩

/-- SimpleInstruction._validate
(src/tests/core/instructions/test_advanced.py lines 35-58): run the
validation rules in order; a rule returning false yields an invalid
result with violation "Failed validation rule"; a rule raising e yields
an invalid result with violation "Error in validation: e"; if every rule
returns true the result is valid with score 1. -/
def simpleValidate (rules : List (Ctx → Except String Bool)) (ctx : Ctx) :
    ValidationResult :=
  match rules with
  | [] => passValidation
  | r :: rest =>
      match r ctx with
      | .error e => ⟨false, 0, [], ["Error in validation: " ++ e]⟩
      | .ok false => ⟨false, 0, [], ["Failed validation rule"]⟩
      | .ok true => simpleValidate rest ctx

/-- SimpleInstruction._execute_impl (test_advanced.py lines 60-68):
returns the dict with the instruction name and "result": "success".  The
trace records that the body ran. -/
def simpleBody (name : String) (ctx : Ctx) : Except String PyVal × Trace :=
  (.ok (.vdict [("name", .vstr name), ("result", .vstr "success")]),
   [(name, ctx)])

/-- execute of a SimpleInstruction: the spec-modelled wrapper around the
source-embedded _validate and _execute_impl. -/
def executeSimple (name : String) (rules : List (Ctx → Except String Bool))
    (ctx : Ctx) : InstructionResult × Trace :=
  executeAdvanced (fun c => .ok (simpleValidate rules c)) (simpleBody name) ctx

/-- A child instruction as a combinator observes it: its name and its
execute behaviour.  Per the engine contract execute never raises, but the
combinator sources guard against a raising invocation as well, so run
returns Except. -/
structure Child where
  name : String
  run : Ctx → Except String InstructionResult

/-- Python dict assignment d[k] = v on an insertion-ordered association
list: an existing key is updated in place, a new key is appended. -/
def dictSet : List (String × PyVal) → String → PyVal → List (String × PyVal)
  | [], k, v => [(k, v)]
  | (k1, v1) :: rest, k, v =>
      if k1 = k then (k, v) :: rest else (k1, v1) :: dictSet rest k v

/-- Python dict.update(entries) folding dictSet over the entries. -/
def ctxUpdateDict (ctx : Ctx) (entries : List (String × PyVal)) : Ctx :=
  entries.foldl (fun a kv => dictSet a kv.1 kv.2) ctx

/-- Python context.update(v): updating with a dict merges its entries;
updating with None raises TypeError (message modelled as
"NoneType object is not iterable", the content of the CPython message);
updating with any other non-mapping value also raises TypeError. -/
def ctxUpdate (ctx : Ctx) (v : PyVal) : Except String Ctx :=
  match v with
  | .vdict entries => .ok (ctxUpdateDict ctx entries)
  | .vnone => .error "NoneType object is not iterable"
  | _ => .error "cannot convert dictionary update sequence to a dict"

/-- SimpleCompositeInstruction._execute_impl loop (test_advanced.py lines
76-91): execute the children strictly in order, accumulating their result
objects; a child named "part1" raises a simulated error before being
invoked; a child invocation that raises e, or a context.update of the
child result data that raises e (the data is None for a Failed child
result), re-raises "Error in name: e", aborting the remaining children.
The trace records each child actually invoked with the context it was
given. -/
def runComposite :
    List Child → Ctx → List InstructionResult →
    Except String (List InstructionResult) × Trace
  | [], _, acc => (.ok acc, [])
  | c :: rest, ctx, acc =>
      if c.name = "part1" then
        (.error ("Error in " ++ c.name ++ ": Simulated error in part1"), [])
      else
        match c.run ctx with
        | .error e =>
            (.error ("Error in " ++ c.name ++ ": " ++ e), [(c.name, ctx)])
        | .ok r =>
            match ctxUpdate ctx r.data with
            | .error e =>
                (.error ("Error in " ++ c.name ++ ": " ++ e), [(c.name, ctx)])
            | .ok ctx2 =>
                let p := runComposite rest ctx2 (acc ++ [r])
                (p.1, (c.name, ctx) :: p.2)

/-- SimpleCompositeInstruction._execute_impl as a body hook: on success it
returns the accumulated list of child result objects (the Python method
returns the results list, not a dict). -/
def compositeBody (children : List Child) (ctx : Ctx) :
    Except String PyVal × Trace :=
  let p := runComposite children ctx []
  (p.1.map (fun rs => PyVal.vlist (rs.map InstructionResult.toVal)), p.2)

/-- execute of a SimpleCompositeInstruction: the spec-modelled wrapper
around the source-embedded composite body; no validation rules are
configured, so validation passes. -/
def executeComposite (children : List Child) (ctx : Ctx) :
    InstructionResult × Trace :=
  executeAdvanced (fun _ => .ok passValidation) (compositeBody children) ctx

/-- ConditionalInstructionTest._execute_impl (test_advanced.py lines
153-161): evaluate the conditions in registration order; the first
predicate returning true executes its instruction and returns its data
wrapped as the dict with key "result"; a raising predicate (or a raising
child invocation) propagates, since the loop has no exception handler;
if no predicate matches, raise ValueError "No matching condition found". -/
def condBody :
    List ((Ctx → Except String Bool) × Child) → Ctx →
    Except String PyVal × Trace
  | [], _ => (.error "No matching condition found", [])
  | (p, c) :: rest, ctx =>
      match p ctx with
      | .error e => (.error e, [])
      | .ok true =>
          match c.run ctx with
          | .error e => (.error e, [(c.name, ctx)])
          | .ok r => (.ok (.vdict [("result", r.data)]), [(c.name, ctx)])
      | .ok false => condBody rest ctx

/-- execute of a ConditionalInstructionTest: the spec-modelled wrapper
around the source-embedded conditional body; no validation rules are
configured, so validation passes. -/
def executeConditional (conds : List ((Ctx → Except String Bool) × Child))
    (ctx : Ctx) : InstructionResult × Trace :=
  executeAdvanced (fun _ => .ok passValidation) (condBody conds) ctx

/-- The children a SimpleParallelInstruction actually launches
(test_advanced.py line 101): the list is sliced to its first two
elements before tasks are created. -/
def launchedChildren (children : List Child) : List Child :=
  children.take 2

/-- The errors of the launched children whose invocation raised
(test_advanced.py lines 107-111): asyncio.gather with
return_exceptions=True yields, in launch order, either the child result
object or the raised exception; the raised ones are collected as
strings. -/
def raisedErrors (children : List Child) (ctx : Ctx) : List String :=
  ((launchedChildren children).map (fun c => c.run ctx)).filterMap
    (fun r => match r with | .error e => some e | .ok _ => none)

/-- The data fields of the launched children whose invocation returned an
InstructionResult object (test_advanced.py lines 107-111): any returned
result object counts as successful, whatever its status, and its data is
collected. -/
def gatheredData (children : List Child) (ctx : Ctx) : List PyVal :=
  ((launchedChildren children).map (fun c => c.run ctx)).filterMap
    (fun r => match r with | .ok ir => some ir.data | .error _ => none)

/-- SimpleParallelInstruction._execute_impl (test_advanced.py lines
99-119): launch the first two children on the fan-out context, gather
every launched child (all of them run, raising or not), then raise an
aggregate error naming every raised failure if any invocation raised,
else return the dict mapping "results" to the gathered data in launch
order. -/
def parallelBody (children : List Child) (ctx : Ctx) :
    Except String PyVal × Trace :=
  let tr := (launchedChildren children).map (fun c => (c.name, ctx))
  if (raisedErrors children ctx).isEmpty then
    (.ok (.vdict [("results", .vlist (gatheredData children ctx))]), tr)
  else
    (.error ("One or more instructions failed: " ++
       String.intercalate ", " (raisedErrors children ctx)), tr)

/-- execute of a SimpleParallelInstruction: the spec-modelled wrapper
around the source-embedded parallel body; no validation rules are
configured, so validation passes. -/
def executeParallel (children : List Child) (ctx : Ctx) :
    InstructionResult × Trace :=
  executeAdvanced (fun _ => .ok passValidation) (parallelBody children) ctx

/-- Modelled from the spec: IterativeInstruction
(agentflow/core/instructions/advanced.py is not under src/; only its
tests are).  Spec section 4.6: repeat execution of the inner body,
incrementing an iteration counter, until the counter reaches the
configured maximum or the body signals convergence.  The body hook
returns the updated context and a flag requesting continuation; the
first argument counts down the remaining budget, the last counts the
body executions performed. -/
def iterLoop (body : Ctx → Ctx × Bool) : Nat → Ctx → Nat → Ctx × Nat
  | 0, ctx, count => (ctx, count)
  | budget + 1, ctx, count =>
      match body ctx with
      | (ctx2, true) => iterLoop body budget ctx2 (count + 1)
      | (ctx2, false) => (ctx2, count + 1)

/-- Modelled from the spec: the IterativeInstruction body hook.  Spec
section 4.6: the overall result data exposes the number of iterations
actually performed and the terminal iteration output. -/
def iterativeBody (body : Ctx → Ctx × Bool) (maxIterations : Nat)
    (ctx : Ctx) : Except String PyVal × Trace :=
  let s := iterLoop body maxIterations ctx 0
  (.ok (.vdict [("iterations", .vint s.2), ("result", .vdict s.1)]), [])

/-- The number of body executions one execute call of an
IterativeInstruction with the given body and budget performs. -/
def iterationsPerformed (body : Ctx → Ctx × Bool) (maxIterations : Nat)
    (ctx : Ctx) : Nat :=
  (iterLoop body maxIterations ctx 0).2

/-- execute of an IterativeInstruction: the spec-modelled wrapper around
the spec-modelled iterative body. -/
def executeIterative (body : Ctx → Ctx × Bool) (maxIterations : Nat)
    (ctx : Ctx) : InstructionResult × Trace :=
  executeAdvanced (fun _ => .ok passValidation)
    (iterativeBody body maxIterations) ctx

/-- The context threading of a successful composite run, child by child
(spec section 4.3): each child runs on the context updated with every
earlier child output.  ds gives each child output as a function of the
context it received. -/
def threadCtx (ds : Child → Ctx → List (String × PyVal)) :
    List Child → Ctx → Ctx
  | [], ctx => ctx
  | c :: rest, ctx => threadCtx ds rest (ctxUpdateDict ctx (ds c ctx))

/-- The invocation trace of a successful composite run: child k is
invoked with the context updated by the outputs of children 0..k-1 in
order. -/
def threadTrace (ds : Child → Ctx → List (String × PyVal)) :
    List Child → Ctx → Trace
  | [], _ => []
  | c :: rest, ctx =>
      (c.name, ctx) :: threadTrace ds rest (ctxUpdateDict ctx (ds c ctx))

/-- Whether the first character list is a prefix of the second. -/
def charsPrefix : List Char → List Char → Bool
  | [], _ => true
  | _ :: _, [] => false
  | a :: as, b :: bs => a == b && charsPrefix as bs

/-- Whether the needle (second argument) occurs contiguously inside the
haystack (first argument). -/
def charsContains : List Char → List Char → Bool
  | [], needle => needle.isEmpty
  | a :: as, needle => charsPrefix needle (a :: as) || charsContains as needle

/-- Whether the string sub occurs as a contiguous substring of s. -/
def strContains (s sub : String) : Bool :=
  charsContains s.data sub.data

/-! Helper lemmas shared by the claim theorems. -/

/-- A body hook returning normally under a passing validation yields a
Completed result carrying the returned data and the body trace. -/
theorem executeAdvanced_pass_ok (body : Ctx → Except String PyVal × Trace)
    (ctx : Ctx) (d : PyVal) (tr : Trace) (h : body ctx = (.ok d, tr)) :
    executeAdvanced (fun _ => .ok passValidation) body ctx =
      (⟨.completed, d, none⟩, tr) := by
  have base : executeAdvanced (fun _ => .ok passValidation) body ctx =
      (match body ctx with
       | (.ok d, tr) => (⟨.completed, d, none⟩, tr)
       | (.error e, tr) => (⟨.failed, .vnone, some e⟩, tr)) := rfl
  rw [base, h]

/-- A body hook raising under a passing validation yields a Failed result
carrying the raised message and the body trace. -/
theorem executeAdvanced_pass_error (body : Ctx → Except String PyVal × Trace)
    (ctx : Ctx) (e : String) (tr : Trace) (h : body ctx = (.error e, tr)) :
    executeAdvanced (fun _ => .ok passValidation) body ctx =
      (⟨.failed, .vnone, some e⟩, tr) := by
  have base : executeAdvanced (fun _ => .ok passValidation) body ctx =
      (match body ctx with
       | (.ok d, tr) => (⟨.completed, d, none⟩, tr)
       | (.error e, tr) => (⟨.failed, .vnone, some e⟩, tr)) := rfl
  rw [base, h]

/-- Validation rules that all return true are skipped by the
SimpleInstruction validation loop. -/
theorem simpleValidate_append_ok (pre rules : List (Ctx → Except String Bool))
    (ctx : Ctx) (hpre : ∀ r ∈ pre, r ctx = .ok true) :
    simpleValidate (pre ++ rules) ctx = simpleValidate rules ctx := by
  induction pre with
  | nil => rfl
  | cons r pre ih =>
      have hr := hpre r (List.mem_cons_self r pre)
      have hrest := ih (fun q hq => hpre q (List.mem_cons_of_mem r hq))
      rw [List.cons_append]
      simp only [simpleValidate, hr]
      exact hrest

/-- Conditions whose predicates all return false are skipped by the
conditional dispatch loop. -/
theorem condBody_append_false
    (pre rest : List ((Ctx → Except String Bool) × Child)) (ctx : Ctx)
    (hpre : ∀ pc ∈ pre, pc.1 ctx = .ok false) :
    condBody (pre ++ rest) ctx = condBody rest ctx := by
  induction pre with
  | nil => rfl
  | cons pc pre ih =>
      obtain ⟨p, c⟩ := pc
      have hp : p ctx = Except.ok false := hpre (p, c) (List.mem_cons_self _ _)
      have hrest := ih (fun q hq => hpre q (List.mem_cons_of_mem _ hq))
      rw [List.cons_append]
      simp only [condBody, hp]
      exact hrest

/-- The successful composite trace lists exactly the child names, in
order. -/
theorem threadTrace_names (ds : Child → Ctx → List (String × PyVal))
    (l : List Child) (ctx : Ctx) :
    (threadTrace ds l ctx).map Prod.fst = l.map Child.name := by
  induction l generalizing ctx with
  | nil => rfl
  | cons c rest ih =>
      simp only [threadTrace, List.map_cons, ih]

/-- Running the composite loop over a segment of children that all
succeed with dict data and are not named "part1" threads the context and
the trace through that segment and continues on the rest. -/
theorem runComposite_append (ds : Child → Ctx → List (String × PyVal))
    (pre rest : List Child) (ctx : Ctx) (acc : List InstructionResult)
    (hpre : ∀ c ∈ pre, c.name ≠ "part1" ∧
      ∀ c2, c.run c2 = .ok ⟨.completed, .vdict (ds c c2), none⟩) :
    ∃ acc2, runComposite (pre ++ rest) ctx acc =
      ((runComposite rest (threadCtx ds pre ctx) acc2).1,
       threadTrace ds pre ctx ++ (runComposite rest (threadCtx ds pre ctx) acc2).2) := by
  induction pre generalizing ctx acc with
  | nil => exact ⟨acc, by simp [threadCtx, threadTrace]⟩
  | cons c pre ih =>
      obtain ⟨hname, hrun⟩ := hpre c (List.mem_cons_self c pre)
      obtain ⟨acc2, hrec⟩ :=
        ih (ctxUpdateDict ctx (ds c ctx))
          (acc ++ [⟨.completed, .vdict (ds c ctx), none⟩])
          (fun q hq => hpre q (List.mem_cons_of_mem c hq))
      refine ⟨acc2, ?_⟩
      rw [List.cons_append]
      simp only [runComposite, hname, hrun, ctxUpdate, if_neg, threadCtx,
        threadTrace]
      rw [hrec]
      simp

/-- A list of children that all return a result object produces no raised
errors in the parallel gather. -/
theorem gatherErrors_nil (l : List Child) (ctx : Ctx)
    (h : ∀ c ∈ l, ∃ r, c.run ctx = .ok r) :
    (l.map (fun c => c.run ctx)).filterMap
      (fun r => match r with | .error e => some e | .ok _ => none) = [] := by
  induction l with
  | nil => rfl
  | cons c rest ih =>
      obtain ⟨r, hr⟩ := h c (List.mem_cons_self c rest)
      simp only [List.map_cons, List.filterMap_cons, hr]
      exact ih (fun q hq => h q (List.mem_cons_of_mem c hq))

/-- A list of children that all return a result object contributes
exactly its data fields, in order, to the parallel gather. -/
theorem gatherData_map (l : List Child) (ctx : Ctx) (ds : Child → PyVal)
    (h : ∀ c ∈ l, ∃ st er, c.run ctx = .ok ⟨st, ds c, er⟩) :
    (l.map (fun c => c.run ctx)).filterMap
      (fun r => match r with | .ok ir => some ir.data | .error _ => none) =
      l.map ds := by
  induction l with
  | nil => rfl
  | cons c rest ih =>
      obtain ⟨st, er, hr⟩ := h c (List.mem_cons_self c rest)
      simp only [List.map_cons, List.filterMap_cons, hr]
      rw [ih (fun q hq => h q (List.mem_cons_of_mem c hq))]

/-- The iteration loop never performs more body executions than its
remaining budget allows. -/
theorem iterLoop_le (body : Ctx → Ctx × Bool) :
    ∀ (budget : Nat) (ctx : Ctx) (count : Nat),
      (iterLoop body budget ctx count).2 ≤ count + budget := by
  intro budget
  induction budget with
  | zero => intro ctx count; simp [iterLoop]
  | succ n ih =>
      intro ctx count
      rcases hb : body ctx with ⟨ctx2, flag⟩
      cases flag
      · simp only [iterLoop, hb]
        omega
      · simp only [iterLoop, hb]
        have := ih ctx2 (count + 1)
        omega

/-- A body that always requests continuation is executed once per unit of
budget. -/
theorem iterLoop_exhausts (body : Ctx → Ctx × Bool)
    (hcont : ∀ c, (body c).2 = true) :
    ∀ (budget : Nat) (ctx : Ctx) (count : Nat),
      (iterLoop body budget ctx count).2 = count + budget := by
  intro budget
  induction budget with
  | zero => intro ctx count; simp [iterLoop]
  | succ n ih =>
      intro ctx count
      rcases hb : body ctx with ⟨ctx2, flag⟩
      have hflag : flag = true := by
        have := hcont ctx
        rw [hb] at this
        exact this
      subst hflag
      simp only [iterLoop, hb]
      rw [ih ctx2 (count + 1)]
      omega

/-! Claim theorems. -/

/-- Claim C1: for every instruction and every context mapping, execute
never raises to its caller: it terminates with an InstructionResult whose
status is terminal (Completed or Failed), converting any failure raised
by validation or the body into a Failed result.  The first conjunct
covers the spec-modelled execute wrapper for arbitrary validation and
body hooks (raised failures modelled as the Except error side); the
remaining conjuncts instantiate it at every instruction kind embedded
here. -/
theorem c1_execute_always_terminal :
    (∀ (validate : Ctx → Except String ValidationResult)
       (body : Ctx → Except String PyVal × Trace) (ctx : Ctx),
       (executeAdvanced validate body ctx).1.status = .completed ∨
       (executeAdvanced validate body ctx).1.status = .failed) ∧
    (∀ name rules ctx,
       (executeSimple name rules ctx).1.status = .completed ∨
       (executeSimple name rules ctx).1.status = .failed) ∧
    (∀ children ctx,
       (executeComposite children ctx).1.status = .completed ∨
       (executeComposite children ctx).1.status = .failed) ∧
    (∀ conds ctx,
       (executeConditional conds ctx).1.status = .completed ∨
       (executeConditional conds ctx).1.status = .failed) ∧
    (∀ children ctx,
       (executeParallel children ctx).1.status = .completed ∨
       (executeParallel children ctx).1.status = .failed) ∧
    (∀ body maxIterations ctx,
       (executeIterative body maxIterations ctx).1.status = .completed ∨
       (executeIterative body maxIterations ctx).1.status = .failed) := by
  have key : ∀ (validate : Ctx → Except String ValidationResult)
      (body : Ctx → Except String PyVal × Trace) (ctx : Ctx),
      (executeAdvanced validate body ctx).1.status = .completed ∨
      (executeAdvanced validate body ctx).1.status = .failed := by
    intro validate body ctx
    unfold executeAdvanced
    split
    · exact Or.inr rfl
    · split
      · split
        · exact Or.inl rfl
        · exact Or.inr rfl
      · exact Or.inr rfl
  exact ⟨key, fun name rules ctx => key _ _ _, fun children ctx => key _ _ _,
    fun conds ctx => key _ _ _, fun children ctx => key _ _ _,
    fun body maxIterations ctx => key _ _ _⟩

/-- Claim C2: for an AdvancedInstruction with an ordered sequence of
validation rules, if a rule returns false or raises, execute returns a
Failed result and the body hook is never invoked (the trace is empty);
rules run in order and validation fails at the first rule returning false
or raising: every rule before the failing one returns true, and the
resulting error is determined by the failing rule alone, whatever the
rules after it. -/
theorem c2_validation_short_circuits (name : String)
    (pre rest : List (Ctx → Except String Bool))
    (r0 : Ctx → Except String Bool) (ctx : Ctx)
    (hpre : ∀ r ∈ pre, r ctx = .ok true)
    (hbad : r0 ctx = .ok false ∨ ∃ e, r0 ctx = .error e) :
    (executeSimple name (pre ++ r0 :: rest) ctx).1.status = .failed ∧
    (executeSimple name (pre ++ r0 :: rest) ctx).2 = [] ∧
    (executeSimple name (pre ++ r0 :: rest) ctx).1.error =
      some (match r0 ctx with
            | .ok _ => "Failed validation rule"
            | .error e => "Error in validation: " ++ e) := by
  have hskip := simpleValidate_append_ok pre (r0 :: rest) ctx hpre
  rcases hbad with hb | ⟨e, hb⟩
  · have hvv : simpleValidate (pre ++ r0 :: rest) ctx =
        ⟨false, 0, [], ["Failed validation rule"]⟩ := by
      rw [hskip]; simp only [simpleValidate, hb]
    refine ⟨?_, ?_, ?_⟩ <;>
      simp [executeSimple, executeAdvanced, hvv, hb, String.intercalate, String.intercalate.go]
  · have hvv : simpleValidate (pre ++ r0 :: rest) ctx =
        ⟨false, 0, [], ["Error in validation: " ++ e]⟩ := by
      rw [hskip]; simp only [simpleValidate, hb]
    refine ⟨?_, ?_, ?_⟩ <;>
      simp [executeSimple, executeAdvanced, hvv, hb, String.intercalate, String.intercalate.go]

/-- Witness for C2: one always-true rule followed by an always-false
rule makes a SimpleInstruction fail without invoking its body. -/
theorem c2_validation_short_circuits_witness :
    (executeSimple "w" [fun _ => .ok true, fun _ => .ok false] []).1.status
      = .failed ∧
    (executeSimple "w" [fun _ => .ok true, fun _ => .ok false] []).2 = [] ∧
    (executeSimple "w" [fun _ => .ok true, fun _ => .ok false] []).1.error =
      some "Failed validation rule" := by
  have h := c2_validation_short_circuits "w" [fun _ => .ok true] []
    (fun _ => .ok false) [] (by intro r hr; simp at hr; subst hr; rfl)
    (Or.inl rfl)
  exact h

/-- Claim C3 (amended): for a CompositeInstruction, after a prefix of
children that succeed with dict data and are not named "part1", the first
child b whose execute yields Failed or whose invocation raises (or which
is named "part1", a name the harness fails with a simulated error before
invoking) aborts the remaining children — the result is the same for
every list of later children, and the trace covers only the prefix and b
— and the composite returns a Failed result whose error names b.  The
error carries b's raised message when the invocation raises, but when b
merely returns a Failed result it carries the NoneType context-update
message instead of b's own error (the original claim's "and its error"
fails there, see the counterexample). -/
theorem c3_composite_fail_fast (ds : Child → Ctx → List (String × PyVal))
    (pre post : List Child) (b : Child) (ctx : Ctx)
    (hpre : ∀ c ∈ pre, c.name ≠ "part1" ∧
      ∀ c2, c.run c2 = .ok ⟨.completed, .vdict (ds c c2), none⟩) :
    (∀ e, b.name ≠ "part1" → b.run (threadCtx ds pre ctx) = .error e →
      executeComposite (pre ++ b :: post) ctx =
        (⟨.failed, .vnone, some ("Error in " ++ b.name ++ ": " ++ e)⟩,
         threadTrace ds pre ctx ++ [(b.name, threadCtx ds pre ctx)])) ∧
    (∀ er, b.name ≠ "part1" →
      b.run (threadCtx ds pre ctx) = .ok ⟨.failed, .vnone, er⟩ →
      executeComposite (pre ++ b :: post) ctx =
        (⟨.failed, .vnone, some ("Error in " ++ b.name ++ ": " ++
            "NoneType object is not iterable")⟩,
         threadTrace ds pre ctx ++ [(b.name, threadCtx ds pre ctx)])) ∧
    (b.name = "part1" →
      executeComposite (pre ++ b :: post) ctx =
        (⟨.failed, .vnone,
            some ("Error in " ++ b.name ++ ": Simulated error in part1")⟩,
         threadTrace ds pre ctx)) ∧
    (threadTrace ds pre ctx).map Prod.fst = pre.map Child.name := by
  obtain ⟨acc2, hrec⟩ := runComposite_append ds pre (b :: post) ctx [] hpre
  refine ⟨?_, ?_, ?_, threadTrace_names ds pre ctx⟩
  · intro e hname hrun
    have hbody : compositeBody (pre ++ b :: post) ctx =
        (.error ("Error in " ++ b.name ++ ": " ++ e),
         threadTrace ds pre ctx ++ [(b.name, threadCtx ds pre ctx)]) := by
      unfold compositeBody
      rw [hrec]
      simp only [runComposite, hname, hrun, if_neg]
      rfl
    exact executeAdvanced_pass_error _ _ _ _ hbody
  · intro er hname hrun
    have hbody : compositeBody (pre ++ b :: post) ctx =
        (.error ("Error in " ++ b.name ++ ": " ++
           "NoneType object is not iterable"),
         threadTrace ds pre ctx ++ [(b.name, threadCtx ds pre ctx)]) := by
      unfold compositeBody
      rw [hrec]
      simp only [runComposite]
      rw [if_neg hname, hrun]
      rfl
    exact executeAdvanced_pass_error _ _ _ _ hbody
  · intro hname
    have hbody : compositeBody (pre ++ b :: post) ctx =
        (.error ("Error in " ++ b.name ++ ": Simulated error in part1"),
         threadTrace ds pre ctx) := by
      unfold compositeBody
      rw [hrec]
      simp only [runComposite]
      rw [if_pos hname]
      simp [Except.map]
    exact executeAdvanced_pass_error _ _ _ _ hbody

/-- Counterexample to C3 as stated: a composite whose single child "b"
returns a Failed result with error "boom" does abort and fail, but its
error message is the NoneType context-update message, which names the
child yet does not contain the child's error "boom". -/
theorem c3_composite_counterexample :
    (Child.mk "b" (fun _ => .ok ⟨.failed, .vnone, some "boom"⟩)).run [] =
      .ok ⟨.failed, .vnone, some "boom"⟩ ∧
    (executeComposite
        [⟨"b", fun _ => .ok ⟨.failed, .vnone, some "boom"⟩⟩] []).1.error =
      some "Error in b: NoneType object is not iterable" ∧
    strContains "Error in b: NoneType object is not iterable" "boom"
      = false := by
  exact ⟨rfl, rfl, rfl⟩

/-- Witness for C3 (amended): the three failure modes at concrete
children — a raising child, a child returning a Failed result, and a
child named "part1". -/
theorem c3_composite_fail_fast_witness :
    executeComposite [⟨"rb", fun _ => .error "boom"⟩] [] =
      (⟨.failed, .vnone, some ("Error in " ++ "rb" ++ ": " ++ "boom")⟩,
       [("rb", [])]) ∧
    executeComposite [⟨"fb", fun _ => .ok ⟨.failed, .vnone, some "boom"⟩⟩] [] =
      (⟨.failed, .vnone,
         some ("Error in " ++ "fb" ++ ": NoneType object is not iterable")⟩,
       [("fb", [])]) ∧
    executeComposite [⟨"part1", fun _ => .ok ⟨.completed, .vdict [], none⟩⟩] [] =
      (⟨.failed, .vnone,
         some ("Error in " ++ "part1" ++ ": Simulated error in part1")⟩,
       []) := by
  refine ⟨?_, ?_, ?_⟩
  · exact (c3_composite_fail_fast (fun _ _ => []) [] []
      ⟨"rb", fun _ => .error "boom"⟩ [] (by simp)).1 "boom" (by decide) rfl
  · exact (c3_composite_fail_fast (fun _ _ => []) [] []
      ⟨"fb", fun _ => .ok ⟨.failed, .vnone, some "boom"⟩⟩ [] (by simp)).2.1
      (some "boom") (by decide) rfl
  · exact (c3_composite_fail_fast (fun _ _ => []) [] []
      ⟨"part1", fun _ => .ok ⟨.completed, .vdict [], none⟩⟩ [] (by simp)).2.2.1
      rfl

/-- Claim C4 (amended): for a CompositeInstruction whose children all
succeed with dict data and none of which is named "part1" (the harness
simulates a failure for a child with that name before invoking it), each
child's result data is merged into the shared context after it completes:
the trace equals the threading trace, in which every later child observes
every earlier child's output merged into its context; and the composite's
result is Completed. -/
theorem c4_composite_threads_context (ds : Child → Ctx → List (String × PyVal))
    (children : List Child) (ctx : Ctx)
    (hall : ∀ c ∈ children, c.name ≠ "part1" ∧
      ∀ c2, c.run c2 = .ok ⟨.completed, .vdict (ds c c2), none⟩) :
    (executeComposite children ctx).1.status = .completed ∧
    (executeComposite children ctx).2 = threadTrace ds children ctx := by
  obtain ⟨acc2, hrec⟩ := runComposite_append ds children [] ctx [] hall
  have hbody : compositeBody children ctx =
      (.ok (.vlist (acc2.map InstructionResult.toVal)),
       threadTrace ds children ctx) := by
    unfold compositeBody
    rw [List.append_nil] at hrec
    rw [hrec]
    simp [runComposite, Except.map]
  unfold executeComposite
  rw [executeAdvanced_pass_ok (compositeBody children) ctx _ _ hbody]
  exact ⟨rfl, rfl⟩

/-- Counterexample to C4 as stated: a composite whose single child is
named "part1" and always succeeds with dict data nevertheless returns a
Failed result, because the harness simulates a failure for that name. -/
theorem c4_composite_counterexample :
    (Child.mk "part1" (fun _ => .ok ⟨.completed, .vdict [], none⟩)).run [] =
      .ok ⟨.completed, .vdict [], none⟩ ∧
    (executeComposite
        [⟨"part1", fun _ => .ok ⟨.completed, .vdict [], none⟩⟩] []).1.status =
      .failed := by
  exact ⟨rfl, rfl⟩

/-- Witness for C4 (amended): two succeeding children thread the first
child's output into the second child's context and the composite
completes. -/
theorem c4_composite_threads_context_witness :
    (executeComposite
        [⟨"a", fun _ => .ok ⟨.completed, .vdict [("k", .vstr "v")], none⟩⟩,
         ⟨"b", fun _ => .ok ⟨.completed, .vdict [("k", .vstr "v")], none⟩⟩]
        []).1.status = .completed ∧
    (executeComposite
        [⟨"a", fun _ => .ok ⟨.completed, .vdict [("k", .vstr "v")], none⟩⟩,
         ⟨"b", fun _ => .ok ⟨.completed, .vdict [("k", .vstr "v")], none⟩⟩]
        []).2 =
      threadTrace (fun _ _ => [("k", .vstr "v")])
        [⟨"a", fun _ => .ok ⟨.completed, .vdict [("k", .vstr "v")], none⟩⟩,
         ⟨"b", fun _ => .ok ⟨.completed, .vdict [("k", .vstr "v")], none⟩⟩]
        [] := by
  exact c4_composite_threads_context (fun _ _ => [("k", .vstr "v")]) _ []
    (by
      intro c hc
      simp only [List.mem_cons, List.mem_singleton] at hc
      rcases hc with h | h | h
      · subst h; exact ⟨by decide, fun c2 => rfl⟩
      · subst h; exact ⟨by decide, fun c2 => rfl⟩
      · cases h)

/-- Claim C5: for a ConditionalInstruction, predicates are evaluated in
registration order: past a prefix of conditions whose predicates return
false, the first predicate returning true executes its branch and only
that branch (the trace holds exactly that child), returning the branch
result data wrapped as the dict with key "result", whatever the
conditions after it; and if every predicate returns false, execute
returns a Failed result whose error is "No matching condition found"
with no branch executed. -/
theorem c5_conditional_first_match (ctx : Ctx) :
    (∀ (pre post : List ((Ctx → Except String Bool) × Child))
       (p : Ctx → Except String Bool) (c : Child) (r : InstructionResult),
       (∀ pc ∈ pre, pc.1 ctx = .ok false) → p ctx = .ok true →
       c.run ctx = .ok r →
       executeConditional (pre ++ (p, c) :: post) ctx =
         (⟨.completed, .vdict [("result", r.data)], none⟩,
          [(c.name, ctx)])) ∧
    (∀ conds : List ((Ctx → Except String Bool) × Child),
       (∀ pc ∈ conds, pc.1 ctx = .ok false) →
       executeConditional conds ctx =
         (⟨.failed, .vnone, some "No matching condition found"⟩, [])) := by
  constructor
  · intro pre post p c r hpre hp hr
    have hbody : condBody (pre ++ (p, c) :: post) ctx =
        (.ok (.vdict [("result", r.data)]), [(c.name, ctx)]) := by
      rw [condBody_append_false pre _ ctx hpre]
      simp only [condBody, hp, hr]
    exact executeAdvanced_pass_ok _ _ _ _ hbody
  · intro conds hconds
    have hbody : condBody conds ctx =
        (.error "No matching condition found", []) := by
      have h := condBody_append_false conds [] ctx hconds
      rw [List.append_nil] at h
      rw [h]
      rfl
    exact executeAdvanced_pass_error _ _ _ _ hbody

/-- Witness for C5: a false condition followed by a true condition
selects the second branch only; a single false condition yields the
no-matching-condition failure. -/
theorem c5_conditional_first_match_witness :
    executeConditional
        [(fun _ => .ok false, ⟨"x", fun _ => .ok ⟨.completed, .vdict [], none⟩⟩),
         (fun _ => .ok true, ⟨"y", fun _ => .ok ⟨.completed, .vdict [("k", .vint 1)], none⟩⟩)]
        [] =
      (⟨.completed, .vdict [("result", .vdict [("k", .vint 1)])], none⟩,
       [("y", [])]) ∧
    executeConditional
        [(fun _ => .ok false, ⟨"x", fun _ => .ok ⟨.completed, .vdict [], none⟩⟩)]
        [] =
      (⟨.failed, .vnone, some "No matching condition found"⟩, []) := by
  constructor
  · exact (c5_conditional_first_match []).1
      [(fun _ => .ok false, ⟨"x", fun _ => .ok ⟨.completed, .vdict [], none⟩⟩)]
      [] (fun _ => .ok true)
      ⟨"y", fun _ => .ok ⟨.completed, .vdict [("k", .vint 1)], none⟩⟩
      ⟨.completed, .vdict [("k", .vint 1)], none⟩
      (by intro pc hpc; simp at hpc; subst hpc; rfl) rfl rfl
  · exact (c5_conditional_first_match []).2
      [(fun _ => .ok false, ⟨"x", fun _ => .ok ⟨.completed, .vdict [], none⟩⟩)]
      (by intro pc hpc; simp at hpc; subst hpc; rfl)

/-- Claim C6: for a ConditionalInstruction, a predicate that raises
during evaluation aborts dispatch: past a prefix of false predicates, a
raising predicate makes execute return a Failed result carrying exactly
that error, with no branch executed (empty trace) and the result
independent of the conditions after it — later predicates are never
tried and the error is not swallowed. -/
theorem c6_conditional_predicate_error
    (pre post : List ((Ctx → Except String Bool) × Child))
    (p : Ctx → Except String Bool) (c : Child) (ctx : Ctx) (e : String)
    (hpre : ∀ pc ∈ pre, pc.1 ctx = .ok false) (hp : p ctx = .error e) :
    executeConditional (pre ++ (p, c) :: post) ctx =
      (⟨.failed, .vnone, some e⟩, []) := by
  have hbody : condBody (pre ++ (p, c) :: post) ctx = (.error e, []) := by
    rw [condBody_append_false pre _ ctx hpre]
    simp only [condBody, hp]
  exact executeAdvanced_pass_error _ _ _ _ hbody

/-- Witness for C6: a false condition followed by a raising predicate
fails the conditional with the raised error and executes no branch, even
though a later condition would match. -/
theorem c6_conditional_predicate_error_witness :
    executeConditional
        [(fun _ => .ok false, ⟨"x", fun _ => .ok ⟨.completed, .vdict [], none⟩⟩),
         (fun _ => .error "predicate blew up", ⟨"y", fun _ => .ok ⟨.completed, .vdict [], none⟩⟩),
         (fun _ => .ok true, ⟨"z", fun _ => .ok ⟨.completed, .vdict [], none⟩⟩)]
        [] =
      (⟨.failed, .vnone, some "predicate blew up"⟩, []) := by
  exact c6_conditional_predicate_error
    [(fun _ => .ok false, ⟨"x", fun _ => .ok ⟨.completed, .vdict [], none⟩⟩)]
    [(fun _ => .ok true, ⟨"z", fun _ => .ok ⟨.completed, .vdict [], none⟩⟩)]
    (fun _ => .error "predicate blew up")
    ⟨"y", fun _ => .ok ⟨.completed, .vdict [], none⟩⟩ [] "predicate blew up"
    (by intro pc hpc; simp at hpc; subst hpc; rfl) rfl

/-- Claim C7: for a ParallelInstruction whose launched children all
succeed, execute returns a Completed result whose data maps "results" to
the sequence of the launched children's data, correlated child by child
in launch order — so its length equals the number of launched children —
and the trace shows every launched child invoked on the fan-out context
in launch order. -/
theorem c7_parallel_all_success (children : List Child) (ctx : Ctx)
    (ds : Child → PyVal)
    (hall : ∀ c ∈ launchedChildren children,
      c.run ctx = .ok ⟨.completed, ds c, none⟩) :
    executeParallel children ctx =
      (⟨.completed,
         .vdict [("results", .vlist ((launchedChildren children).map ds))],
         none⟩,
       (launchedChildren children).map (fun c => (c.name, ctx))) := by
  have herr : raisedErrors children ctx = [] :=
    gatherErrors_nil (launchedChildren children) ctx
      (fun c hc => ⟨_, hall c hc⟩)
  have hdata : gatheredData children ctx = (launchedChildren children).map ds :=
    gatherData_map (launchedChildren children) ctx ds
      (fun c hc => ⟨.completed, none, hall c hc⟩)
  have hbody : parallelBody children ctx =
      (.ok (.vdict [("results", .vlist ((launchedChildren children).map ds))]),
       (launchedChildren children).map (fun c => (c.name, ctx))) := by
    unfold parallelBody
    rw [herr, hdata]
    rfl
  exact executeAdvanced_pass_ok _ _ _ _ hbody

/-- Witness for C7: two succeeding children yield a Completed result
listing both data values in launch order. -/
theorem c7_parallel_all_success_witness :
    executeParallel
        [⟨"a", fun _ => .ok ⟨.completed, .vdict [("ka", .vint 1)], none⟩⟩,
         ⟨"b", fun _ => .ok ⟨.completed, .vdict [("kb", .vint 2)], none⟩⟩]
        [] =
      (⟨.completed,
         .vdict [("results",
           .vlist [.vdict [("ka", .vint 1)], .vdict [("kb", .vint 2)]])],
         none⟩,
       [("a", []), ("b", [])]) := by
  have h := c7_parallel_all_success
    [⟨"a", fun _ => .ok ⟨.completed, .vdict [("ka", .vint 1)], none⟩⟩,
     ⟨"b", fun _ => .ok ⟨.completed, .vdict [("kb", .vint 2)], none⟩⟩]
    []
    (fun c => if c.name = "a" then .vdict [("ka", .vint 1)]
              else .vdict [("kb", .vint 2)])
    (by
      intro c hc
      simp only [launchedChildren, List.take, List.mem_cons,
        List.mem_singleton] at hc
      rcases hc with h | h | h
      · subst h; rfl
      · subst h; rfl
      · cases h)
  exact h

/-- Claim C8 (amended): for a ParallelInstruction, if at least one
launched child's invocation raises, execute returns Failed with an error
that enumerates every raised failure (not only the first), and every
launched child still runs (the trace covers all launched children — no
cancellation); but a launched child that merely returns a Failed result
is treated as a success: if no invocation raises, the instruction
completes even when some child result has Failed status (the original
claim fails there, see the counterexample). -/
theorem c8_parallel_aggregates_raised_failures (children : List Child)
    (ctx : Ctx) :
    (raisedErrors children ctx ≠ [] →
      executeParallel children ctx =
        (⟨.failed, .vnone,
           some ("One or more instructions failed: " ++
             String.intercalate ", " (raisedErrors children ctx))⟩,
         (launchedChildren children).map (fun c => (c.name, ctx)))) ∧
    (raisedErrors children ctx = [] →
      (executeParallel children ctx).1.status = .completed) := by
  constructor
  · intro h
    have hbody : parallelBody children ctx =
        (.error ("One or more instructions failed: " ++
           String.intercalate ", " (raisedErrors children ctx)),
         (launchedChildren children).map (fun c => (c.name, ctx))) := by
      unfold parallelBody
      rw [if_neg]
      simp [List.isEmpty_iff, h]
    exact executeAdvanced_pass_error _ _ _ _ hbody
  · intro h
    have hbody : parallelBody children ctx =
        (.ok (.vdict [("results", .vlist (gatheredData children ctx))]),
         (launchedChildren children).map (fun c => (c.name, ctx))) := by
      unfold parallelBody
      rw [if_pos]
      simp [List.isEmpty_iff, h]
    unfold executeParallel
    rw [executeAdvanced_pass_ok _ _ _ _ hbody]

/-- Counterexample to C8 as stated: with children [A(success),
B(returning a Failed result)], no invocation raises, so the parallel
instruction returns Completed — not Failed — and B's absent data (None)
is even included in the results. -/
theorem c8_parallel_counterexample :
    (Child.mk "b" (fun _ => .ok ⟨.failed, .vnone, some "boom"⟩)).run [] =
      .ok ⟨.failed, .vnone, some "boom"⟩ ∧
    executeParallel
        [⟨"a", fun _ => .ok ⟨.completed, .vdict [("k", .vint 1)], none⟩⟩,
         ⟨"b", fun _ => .ok ⟨.failed, .vnone, some "boom"⟩⟩] [] =
      (⟨.completed,
         .vdict [("results", .vlist [.vdict [("k", .vint 1)], .vnone])],
         none⟩,
       [("a", []), ("b", [])]) := by
  exact ⟨rfl, rfl⟩

/-- Witness for C8 (amended): one succeeding child and one raising child
make the parallel instruction fail with the aggregate error while both
launched children appear in the trace; and with no raising child it
completes. -/
theorem c8_parallel_aggregates_raised_failures_witness :
    executeParallel
        [⟨"ra", fun _ => .error "ea"⟩, ⟨"rb", fun _ => .error "eb"⟩] [] =
      (⟨.failed, .vnone,
         some ("One or more instructions failed: " ++
           String.intercalate ", "
             (raisedErrors
               [⟨"ra", fun _ => .error "ea"⟩, ⟨"rb", fun _ => .error "eb"⟩]
               []))⟩,
       [("ra", []), ("rb", [])]) ∧
    (executeParallel
        [⟨"a", fun _ => .ok ⟨.completed, .vdict [], none⟩⟩,
         ⟨"b", fun _ => .ok ⟨.failed, .vnone, some "boom"⟩⟩]
        []).1.status = .completed := by
  constructor
  · exact (c8_parallel_aggregates_raised_failures
      [⟨"ra", fun _ => .error "ea"⟩, ⟨"rb", fun _ => .error "eb"⟩] []).1
      (by decide)
  · exact (c8_parallel_aggregates_raised_failures
      [⟨"a", fun _ => .ok ⟨.completed, .vdict [], none⟩⟩,
       ⟨"b", fun _ => .ok ⟨.failed, .vnone, some "boom"⟩⟩] []).2 rfl

/-- The trace of the spec-modelled execute under a passing validation is
the body trace, whether the body returns or raises. -/
theorem executeAdvanced_pass_trace (body : Ctx → Except String PyVal × Trace)
    (ctx : Ctx) :
    (executeAdvanced (fun _ => .ok passValidation) body ctx).2 =
      (body ctx).2 := by
  rcases hb : body ctx with ⟨r, tr⟩
  cases r with
  | error e => rw [executeAdvanced_pass_error _ _ _ _ hb]
  | ok d => rw [executeAdvanced_pass_ok _ _ _ _ hb]

/-- The parallel body always records every launched child in its trace,
whether it aggregates failures or returns the results. -/
theorem parallelBody_trace (children : List Child) (ctx : Ctx) :
    (parallelBody children ctx).2 =
      (launchedChildren children).map (fun c => (c.name, ctx)) := by
  unfold parallelBody
  split <;> rfl

/-- Claim C9: an IterativeInstruction with a positive budget n whose body
always requests continuation performs exactly n body executions and
completes with data exposing that count; with budget 1 the body executes
exactly once for every body, convergent or not; and no body ever executes
more often than the configured maximum. -/
theorem c9_iterative_budget (body : Ctx → Ctx × Bool) (n : Nat) (ctx : Ctx)
    (hpos : 0 < n) (hcont : ∀ c, (body c).2 = true) :
    iterationsPerformed body n ctx = n ∧
    (executeIterative body n ctx).1 =
      ⟨.completed,
       .vdict [("iterations", .vint n),
               ("result", .vdict (iterLoop body n ctx 0).1)],
       none⟩ ∧
    (∀ (body2 : Ctx → Ctx × Bool) (c2 : Ctx),
       iterationsPerformed body2 1 c2 = 1) ∧
    (∀ (body2 : Ctx → Ctx × Bool) (n2 : Nat) (c2 : Ctx),
       iterationsPerformed body2 n2 c2 ≤ n2) := by
  have hcount : iterationsPerformed body n ctx = n := by
    unfold iterationsPerformed
    rw [iterLoop_exhausts body hcont n ctx 0]
    omega
  refine ⟨hcount, ?_, ?_, ?_⟩
  · have hbody : iterativeBody body n ctx =
        (.ok (.vdict [("iterations", .vint (iterLoop body n ctx 0).2),
                      ("result", .vdict (iterLoop body n ctx 0).1)]), []) := rfl
    unfold executeIterative
    rw [executeAdvanced_pass_ok _ _ _ _ hbody]
    have : (iterLoop body n ctx 0).2 = n := hcount
    rw [this]
  · intro body2 c2
    unfold iterationsPerformed
    rcases hb : body2 c2 with ⟨ctx2, flag⟩
    cases flag <;> simp [iterLoop, hb]
  · intro body2 n2 c2
    have h := iterLoop_le body2 n2 c2 0
    unfold iterationsPerformed
    omega

/-- Witness for C9: an always-continuing body under budget 5 executes
exactly 5 times, and a body that immediately requests a stop still
executes once under budget 1. -/
theorem c9_iterative_budget_witness :
    iterationsPerformed (fun c => (c, true)) 5 [] = 5 ∧
    iterationsPerformed (fun c => (c, false)) 1 [] = 1 := by
  constructor
  · exact (c9_iterative_budget (fun c => (c, true)) 5 [] (by decide)
      (fun c => rfl)).1
  · exact (c9_iterative_budget (fun c => (c, true)) 5 [] (by decide)
      (fun c => rfl)).2.2.1 (fun c => (c, false)) []

/-- Claim C10: the parallel instruction implementation launches only the
first two children: for every child list of length at least 2 (written
c0 :: c1 :: rest), the launched set is exactly [c0, c1], the trace shows
exactly those two invoked — children at later indices never run — and
when both launched children return a result, the "results" sequence holds
exactly their two data values. -/
theorem c10_parallel_first_two (c0 c1 : Child) (rest : List Child)
    (ctx : Ctx) :
    launchedChildren (c0 :: c1 :: rest) = [c0, c1] ∧
    (executeParallel (c0 :: c1 :: rest) ctx).2 =
      [(c0.name, ctx), (c1.name, ctx)] ∧
    (∀ r0 r1 : InstructionResult,
      c0.run ctx = .ok r0 → c1.run ctx = .ok r1 →
      executeParallel (c0 :: c1 :: rest) ctx =
        (⟨.completed, .vdict [("results", .vlist [r0.data, r1.data])], none⟩,
         [(c0.name, ctx), (c1.name, ctx)])) := by
  refine ⟨rfl, ?_, ?_⟩
  · unfold executeParallel
    rw [executeAdvanced_pass_trace, parallelBody_trace]
    rfl
  · intro r0 r1 h0 h1
    have hruns : (launchedChildren (c0 :: c1 :: rest)).map
        (fun c => c.run ctx) = [c0.run ctx, c1.run ctx] := rfl
    have herr : raisedErrors (c0 :: c1 :: rest) ctx = [] := by
      unfold raisedErrors
      rw [hruns, h0, h1]
      rfl
    have hdata : gatheredData (c0 :: c1 :: rest) ctx = [r0.data, r1.data] := by
      unfold gatheredData
      rw [hruns, h0, h1]
      rfl
    have hbody : parallelBody (c0 :: c1 :: rest) ctx =
        (.ok (.vdict [("results", .vlist [r0.data, r1.data])]),
         [(c0.name, ctx), (c1.name, ctx)]) := by
      unfold parallelBody
      rw [herr, hdata]
      rfl
    exact executeAdvanced_pass_ok _ _ _ _ hbody

/-- Witness for C10: with three children, only the first two appear in
the trace and the results of the first two are returned. -/
theorem c10_parallel_first_two_witness :
    launchedChildren
        [⟨"a", fun _ => .ok ⟨.completed, .vdict [("ka", .vint 1)], none⟩⟩,
         ⟨"b", fun _ => .ok ⟨.completed, .vdict [("kb", .vint 2)], none⟩⟩,
         ⟨"c", fun _ => .ok ⟨.completed, .vdict [("kc", .vint 3)], none⟩⟩] =
      [⟨"a", fun _ => .ok ⟨.completed, .vdict [("ka", .vint 1)], none⟩⟩,
       ⟨"b", fun _ => .ok ⟨.completed, .vdict [("kb", .vint 2)], none⟩⟩] ∧
    executeParallel
        [⟨"a", fun _ => .ok ⟨.completed, .vdict [("ka", .vint 1)], none⟩⟩,
         ⟨"b", fun _ => .ok ⟨.completed, .vdict [("kb", .vint 2)], none⟩⟩,
         ⟨"c", fun _ => .ok ⟨.completed, .vdict [("kc", .vint 3)], none⟩⟩]
        [] =
      (⟨.completed,
         .vdict [("results",
           .vlist [.vdict [("ka", .vint 1)], .vdict [("kb", .vint 2)]])],
         none⟩,
       [("a", []), ("b", [])]) := by
  constructor
  · exact (c10_parallel_first_two
      ⟨"a", fun _ => .ok ⟨.completed, .vdict [("ka", .vint 1)], none⟩⟩
      ⟨"b", fun _ => .ok ⟨.completed, .vdict [("kb", .vint 2)], none⟩⟩
      [⟨"c", fun _ => .ok ⟨.completed, .vdict [("kc", .vint 3)], none⟩⟩]
      []).1
  · exact (c10_parallel_first_two
      ⟨"a", fun _ => .ok ⟨.completed, .vdict [("ka", .vint 1)], none⟩⟩
      ⟨"b", fun _ => .ok ⟨.completed, .vdict [("kb", .vint 2)], none⟩⟩
      [⟨"c", fun _ => .ok ⟨.completed, .vdict [("kc", .vint 3)], none⟩⟩]
      []).2.2 ⟨.completed, .vdict [("ka", .vint 1)], none⟩
      ⟨.completed, .vdict [("kb", .vint 2)], none⟩ rfl rfl

end APOS
